import Mathlib

/-!
Verification development for the wf-dump-scripts entity extraction,
relationship-resolution and test-status aggregation pipeline.

The Python source is shallowly embedded: raw JSON values become the `Json`
inductive, Python dictionaries become association lists, and code that can
raise becomes `Except PyErr`.  A JSONL input stream is modelled as a
`List (Option Json)`: `some j` is a line that `json.loads` parses to `j`,
`none` is a line on which `json.loads` raises `JSONDecodeError`.
-/

/-- A parsed JSON value (the Python objects produced by `json.loads`).
Numbers are modelled as integers; none of the embedded code inspects
numeric values beyond truthiness and equality with strings. -/
inductive Json where
  | null : Json
  | bool (b : Bool) : Json
  | num (n : Int) : Json
  | str (s : String) : Json
  | arr (elems : List Json) : Json
  | obj (fields : List (String × Json)) : Json
deriving Repr

mutual
/-- Structural equality of JSON values: Python `==` on the objects
`json.loads` produces. -/
def jsonBeq : Json → Json → Bool
  | .null, .null => true
  | .bool a, .bool b => a == b
  | .num a, .num b => a == b
  | .str a, .str b => a == b
  | .arr a, .arr b => jsonBeqList a b
  | .obj a, .obj b => jsonBeqFields a b
  | _, _ => false

def jsonBeqList : List Json → List Json → Bool
  | [], [] => true
  | x :: xs, y :: ys => jsonBeq x y && jsonBeqList xs ys
  | _, _ => false

def jsonBeqFields : List (String × Json) → List (String × Json) → Bool
  | [], [] => true
  | (k1, v1) :: xs, (k2, v2) :: ys =>
    k1 == k2 && jsonBeq v1 v2 && jsonBeqFields xs ys
  | _, _ => false
end

/-- The Python exceptions the embedded code can raise. -/
inductive PyErr where
  | attributeError
  | typeError
  | keyError
  | indexError
  | noZidFound
  | noTestResultFound
  | jsonDecodeError
  | missingData
deriving DecidableEq, Repr

/-- `fields.get(key)` on a parsed-JSON dict (keys are unique after
`json.loads`, so first match is the Python lookup). -/
def lookupField : List (String × Json) → String → Option Json
  | [], _ => none
  | (k, v) :: rest, key => if k = key then some v else lookupField rest key

/-- Python truthiness of a JSON value (`if x:`). -/
def truthy : Json → Bool
  | .null => false
  | .bool b => b
  | .num n => n != 0
  | .str s => s != ""
  | .arr xs => !xs.isEmpty
  | .obj fs => !fs.isEmpty

/-- Whether a JSON value is hashable in Python (usable as a dict key). -/
def hashable : Json → Bool
  | .arr _ => false
  | .obj _ => false
  | _ => true

/-- Embeds `Zentity.is_correct_type` (models/wf/zentity.py).

`EXPECTED_TYPE` is the class attribute: `some "Z14"` for `Zimpl` (the only
subclass that overrides it) and `none` for `Ztester` and `Zfunction`, which
inherit the default `EXPECTED_TYPE: ZobjectType = None`.

The Python body is
```
z2k2 = self.data.get("Z2K2")
if not isinstance(z2k2, dict): return False
return z2k2.get("Z1K1") == self.EXPECTED_TYPE.value
```
`self.data.get` raises `AttributeError` when `data` is not a dict, and
`self.EXPECTED_TYPE.value` raises `AttributeError` when the class attribute
is still `None`. -/
def is_correct_type (EXPECTED_TYPE : Option String) (data : Json) :
    Except PyErr Bool :=
  match data with
  | .obj fs =>
    match lookupField fs "Z2K2" with
    | some (.obj z2k2) =>
      match EXPECTED_TYPE with
      | none => .error .attributeError
      | some t =>
        match lookupField z2k2 "Z1K1" with
        | some v => .ok (jsonBeq v (.str t))
        | none => .ok false
    | _ => .ok false
  | _ => .error .attributeError

/-- `Ztester` does not override `EXPECTED_TYPE`, so it keeps the inherited
`None` (models/wf/ztester.py defines only `is_tester`). -/
def Ztester_EXPECTED_TYPE : Option String := none

/-- `Zfunction` does not override `EXPECTED_TYPE` either
(models/wf/zfunction.py). -/
def Zfunction_EXPECTED_TYPE : Option String := none

/-- `Zimpl.EXPECTED_TYPE = ZobjectType.IMPLEMENTATION` i.e. `"Z14"`
(models/wf/zimpl.py, models/wf/enums.py). -/
def Zimpl_EXPECTED_TYPE : Option String := some "Z14"

/-- Embeds `Zentity.zid` (models/wf/zentity.py):
```
try: return self.data["Z2K1"]["Z6K1"]
except (KeyError, TypeError): raise NoZidFound(...)
```
Subscripting a non-dict raises `TypeError` and a missing key raises
`KeyError`; both are caught and re-raised as `NoZidFound`, so the result is
`NoZidFound` unless the path exists through dicts. -/
def zid (data : Json) : Except PyErr Json :=
  match data with
  | .obj fs =>
    match lookupField fs "Z2K1" with
    | some (.obj gs) =>
      match lookupField gs "Z6K1" with
      | some v => .ok v
      | none => .error .noZidFound
    | some _ => .error .noZidFound
    | none => .error .noZidFound
  | _ => .error .noZidFound

/-- `key in result` on the map being built (Python dict membership;
insertion order is kept, so the map is an association list). -/
def containsKeyJ : List (Json × Json) → Json → Bool
  | [], _ => false
  | (k, _) :: rest, key => jsonBeq k key || containsKeyJ rest key

/-- Embeds the line loop shared by `ZMap.build_map`
(models/statistics/zmap.py) and `Z8Calculator.build_map`
(models/z8_calculator.py):

```
for line in f:
    processed += 1
    ...progress log...
    try: data = json.loads(line)
    except json.JSONDecodeError: continue
    obj = cls(data=data)
    if obj.is_correct_type and obj.zid and obj.zid not in result:
        result[obj.zid] = obj
```

A `none` line is one on which `json.loads` raises (caught, line skipped but
still counted in `processed`).  `is_correct_type` and `zid` can raise; those
exceptions are not caught anywhere in the loop.  A truthy unhashable id
(list/dict) raises `TypeError` at `zid not in result`.  The returned pair is
(`processed`, `result`). -/
def build_map_loop (EXPECTED_TYPE : Option String) :
    List (Option Json) → Nat → List (Json × Json) →
    Except PyErr (Nat × List (Json × Json))
  | [], processed, result => .ok (processed, result)
  | none :: rest, processed, result =>
    build_map_loop EXPECTED_TYPE rest (processed + 1) result
  | some data :: rest, processed, result =>
    match is_correct_type EXPECTED_TYPE data with
    | .error e => .error e
    | .ok false => build_map_loop EXPECTED_TYPE rest (processed + 1) result
    | .ok true =>
      match zid data with
      | .error e => .error e
      | .ok z =>
        if truthy z then
          if hashable z then
            if containsKeyJ result z then
              build_map_loop EXPECTED_TYPE rest (processed + 1) result
            else
              build_map_loop EXPECTED_TYPE rest (processed + 1)
                (result ++ [(z, data)])
          else .error .typeError
        else build_map_loop EXPECTED_TYPE rest (processed + 1) result

/-- Embeds `ZMap.build_map` (models/statistics/zmap.py): runs the line loop
from an empty map over the whole stream and returns the map (no cardinality
check in this variant). -/
def ZMap_build_map (EXPECTED_TYPE : Option String) (lines : List (Option Json)) :
    Except PyErr (Nat × List (Json × Json)) :=
  build_map_loop EXPECTED_TYPE lines 0 []

/-- Embeds `Z8Calculator.build_map` (models/z8_calculator.py): the same
line loop into the given target map, then
```
if length == 0: raise MissingData(...)
if length < 3000: raise MissingData(...)
```
-/
def Z8Calculator_build_map (EXPECTED_TYPE : Option String)
    (target_map : List (Json × Json)) (lines : List (Option Json)) :
    Except PyErr (Nat × List (Json × Json)) :=
  match build_map_loop EXPECTED_TYPE lines 0 target_map with
  | .error e => .error e
  | .ok (processed, result) =>
    if result.length == 0 then .error .missingData
    else if result.length < 3000 then .error .missingData
    else .ok (processed, result)

/-- `map.get(zid)` inside the resolver loops, where `map` is a Python
`Dict[str, entity]` and `zid` is an element of the raw id field: a string
key is looked up, a non-string hashable key misses (the dict has only
string keys), and an unhashable key (list/dict) raises `TypeError`. -/
def mapGetJ {α : Type} (map : String → Option α) : Json → Except PyErr (Option α)
  | .str s => .ok (map s)
  | .arr _ => .error .typeError
  | .obj _ => .error .typeError
  | _ => .ok none

/-- The `for zid in z8k3/z8k4` loop body shared by
`Zfunction.extract_ztesters` and `Zfunction.extract_zimpl`
(models/wf/zfunction.py):
```
for zid in ids:
    entity = map.get(zid)
    if entity: acc.append(entity)
```
(an entity object is always truthy, `None` is falsy). -/
def resolve_loop {α : Type} (map : String → Option α) :
    List Json → List α → Except PyErr (List α)
  | [], acc => .ok acc
  | z :: rest, acc =>
    match mapGetJ map z with
    | .error e => .error e
    | .ok (some t) => resolve_loop map rest (acc ++ [t])
    | .ok none => resolve_loop map rest acc

/-- Embeds the common body of `Zfunction.extract_ztesters` (field `Z8K3`)
and `Zfunction.extract_zimpl` (field `Z8K4`) from models/wf/zfunction.py:

```
z2k2 = self.data.get("Z2K2")
if not isinstance(z2k2, dict): return
ids = z2k2.get(key)
if not ids: return
if isinstance(ids, str): ids = [ids]
for zid in ids: ...append map hits...
```

`acc` is the current `self.ztesters` / `self.zimpl` list that the method
mutates in place; the new list is returned.  Iterating a truthy dict yields
its keys; iterating a number or boolean raises `TypeError`. -/
def extract_field {α : Type} (key : String) (map : String → Option α)
    (data : Json) (acc : List α) : Except PyErr (List α) :=
  match data with
  | .obj fs =>
    match lookupField fs "Z2K2" with
    | some (.obj z2k2) =>
      match lookupField z2k2 key with
      | none => .ok acc
      | some v =>
        if truthy v then
          match v with
          | .str s => resolve_loop map [Json.str s] acc
          | .arr xs => resolve_loop map xs acc
          | .obj gs => resolve_loop map (gs.map (fun kv => Json.str kv.1)) acc
          | _ => .error .typeError
        else .ok acc
    | _ => .ok acc
  | _ => .error .attributeError

/-- `Zfunction.extract_ztesters` (models/wf/zfunction.py): appends the
tester-map hits of field `Z2K2 > Z8K3` to the function's `ztesters`. -/
def extract_ztesters {α : Type} (map : String → Option α) (data : Json)
    (ztesters : List α) : Except PyErr (List α) :=
  extract_field "Z8K3" map data ztesters

/-- `Zfunction.extract_zimpl` (models/wf/zfunction.py): appends the
implementation-map hits of field `Z2K2 > Z8K4` to the function's `zimpl`. -/
def extract_zimpl {α : Type} (map : String → Option α) (data : Json)
    (zimpl : List α) : Except PyErr (List α) :=
  extract_field "Z8K4" map data zimpl

/-- Python subscript `j[k]` with a string key: `KeyError` when the key is
missing from a dict, `TypeError` when `j` is not a dict. -/
def pySubscript (j : Json) (k : String) : Except PyErr Json :=
  match j with
  | .obj fs =>
    match lookupField fs k with
    | some v => .ok v
    | none => .error .keyError
  | _ => .error .typeError

/-- The raw expression `self.data["Z2K2"]["Z8K4"]` of
`Zimpl.extract_connected` before its `try/except`. -/
def extract_connected_path (data : Json) : Except PyErr Json :=
  match pySubscript data "Z2K2" with
  | .error e => .error e
  | .ok a => pySubscript a "Z8K4"

/-- Embeds `Zimpl.extract_connected` (models/wf/zimpl.py) with the
`try/except` made explicit, so that an exception the `except` clause would
not catch would surface as `.error`:

```
try: impls = self.data["Z2K2"]["Z8K4"]
except (KeyError, TypeError): return []
if not isinstance(impls, list): return []
return impls[1:]
```
-/
def extract_connected (data : Json) : Except PyErr (List Json) :=
  match extract_connected_path data with
  | .error e =>
    if e = .keyError ∨ e = .typeError then .ok [] else .error e
  | .ok (.arr impls) => .ok (impls.drop 1)
  | .ok _ => .ok []

/-- Python dict-comprehension key list: first occurrence of each key keeps
its position, later duplicates are dropped (they only overwrite the value).
Models `tasks = {zid: ... for zid in zids}` in
`Client.bulk_fetch_connected_implementations` (models/client.py). -/
def firstOccurrences (seen : List String) : List String → List String
  | [] => []
  | z :: rest =>
    if z ∈ seen then firstOccurrences seen rest
    else z :: firstOccurrences (z :: seen) rest

/-- One remote `fetch_connected_implementations` query per function id,
abstracted as an oracle: `.ok` is the implementation-id list of a successful
query (after retries), `.error` any exception the query escalates. -/
def fetch_fallback {ε : Type} (fetch : String → Except ε (List String))
    (z : String) : List String :=
  match fetch z with
  | .ok l => l
  | .error _ => []

/-- Embeds `Client.bulk_fetch_connected_implementations` (models/client.py):

```
tasks = {zid: create_task(fetch_connected_implementations(zid)) for zid in zids}
results = {}
for zid, task in tasks.items():
    try: results[zid] = await task
    except Exception: results[zid] = []
return results
```

Each task is independent, so the awaited value of the task for `zid` is
exactly `fetch zid`; a failure is caught per id and mapped to `[]`. -/
def bulk_fetch_connected_implementations {ε : Type}
    (fetch : String → Except ε (List String)) (zids : List String) :
    List (String × List String) :=
  (firstOccurrences [] zids).map (fun z => (z, fetch_fallback fetch z))

/-- Lookup in a string-keyed result mapping. -/
def lookupResult {α : Type} : List (String × α) → String → Option α
  | [], _ => none
  | (k, v) :: rest, key => if k = key then some v else lookupResult rest key

/-- `"Z1K1" in d` for a dict node: the alias-walk discriminator test of
`Zentity.count_aliases` (models/wf/zentity.py). -/
def hasZ1K1 : Json → Bool
  | .obj fs => (lookupField fs "Z1K1").isSome
  | _ => false

mutual
/-- Embeds `Zentity.count_aliases` (models/wf/zentity.py):

```
def _count(d):
    if isinstance(d, dict):
        if "Z1K1" in d: return 1
        return sum(_count(v) for v in d.values())
    if isinstance(d, list):
        return sum(_count(i) for i in d)
    return 0
```

Note the walk returns 1 at a dict carrying `"Z1K1"` without descending
into it. -/
def count_aliases : Json → Nat
  | .obj fs =>
    if (lookupField fs "Z1K1").isSome then 1 else count_aliases_fields fs
  | .arr xs => count_aliases_list xs
  | _ => 0

def count_aliases_fields : List (String × Json) → Nat
  | [] => 0
  | kv :: rest => count_aliases kv.2 + count_aliases_fields rest

def count_aliases_list : List Json → Nat
  | [] => 0
  | x :: rest => count_aliases x + count_aliases_list rest
end

mutual
/-- Modelled from the spec: `aliasCount` is a "count of all sub-records
anywhere in the JSON tree that carry a type-discriminator field (recursive,
unbounded depth)".  `markedNodes inside j` enumerates every node of the
tree (descending into every object and array, including
discriminator-carrying objects), tagging each node with whether some strict
ancestor object carries `"Z1K1"`.  Counting the nodes with `hasZ1K1`
regardless of the tag is the claim's count; counting only the untagged ones
is the outermost count. -/
def markedNodes : Bool → Json → List (Bool × Json)
  | inside, .obj fs =>
    (inside, .obj fs) ::
      markedNodesFields (inside || (lookupField fs "Z1K1").isSome) fs
  | inside, .arr xs => (inside, .arr xs) :: markedNodesList inside xs
  | inside, j => [(inside, j)]

def markedNodesFields : Bool → List (String × Json) → List (Bool × Json)
  | _, [] => []
  | inside, kv :: rest =>
    markedNodes inside kv.2 ++ markedNodesFields inside rest

def markedNodesList : Bool → List Json → List (Bool × Json)
  | _, [] => []
  | inside, x :: rest => markedNodes inside x ++ markedNodesList inside rest
end

/-- The number of discriminator-carrying sub-records anywhere in the tree,
at any nesting depth — the count claimed for `count_aliases`. -/
def allDiscriminatorCount (j : Json) : Nat :=
  ((markedNodes false j).filter (fun p => hasZ1K1 p.2)).length

/-- The number of outermost discriminator-carrying sub-records: those not
nested inside another discriminator-carrying object. -/
def outermostDiscriminatorCount (j : Json) : Nat :=
  ((markedNodes false j).filter (fun p => !p.1 && hasZ1K1 p.2)).length

/-- `TestStatus` (models/wf/enums.py): the enum defines only `PASS` and
`FAIL`. -/
inductive TestStatus where
  | PASS
  | FAIL
deriving DecidableEq, Repr

/-- One pass of the inner loop of `ZwikiWriter._count_test_status`
(models/statistics/zwikiwriter.py) over one implementation's
`test_results.values()`: accumulates (pass_count, fail_count, total_tests). -/
def count_statuses : List TestStatus → Nat × Nat × Nat
  | [] => (0, 0, 0)
  | s :: rest =>
    let (p, f, t) := count_statuses rest
    match s with
    | .PASS => (p + 1, f, t + 1)
    | .FAIL => (p, f + 1, t + 1)

/-- Embeds `ZwikiWriter._count_test_status` for one function: the outer
loop over `zf.zimplementations`, each implementation contributing its
`test_results` values.  Returns (pass_count, fail_count, total_tests). -/
def _count_test_status : List (List TestStatus) → Nat × Nat × Nat
  | [] => (0, 0, 0)
  | impl :: rest =>
    let (p1, f1, t1) := count_statuses impl
    let (p2, f2, t2) := _count_test_status rest
    (p1 + p2, f1 + f2, t1 + t2)

/-- The `fail_counts` list gathered by
`ZwikiWriter.write_summary_statistics`: one `(fail_count, zf_total_tests)`
pair per collected function. -/
def fail_counts (zfs : List (List (List TestStatus))) : List (Nat × Nat) :=
  zfs.map (fun zf => ((_count_test_status zf).2.1, (_count_test_status zf).2.2))

/-- `zero_fail = sum(1 for f, _ in fail_counts if f == 0)`
(models/statistics/zwikiwriter.py). -/
def zero_fail (fcs : List (Nat × Nat)) : Nat :=
  fcs.countP (fun p => p.1 == 0)

/-- `one_fail = sum(1 for f, _ in fail_counts if f == 1)`. -/
def one_fail (fcs : List (Nat × Nat)) : Nat :=
  fcs.countP (fun p => p.1 == 1)

/-- `two_fail = sum(1 for f, _ in fail_counts if f == 2)`. -/
def two_fail (fcs : List (Nat × Nat)) : Nat :=
  fcs.countP (fun p => p.1 == 2)

/-- `two_or_more_fail = sum(1 for f, _ in fail_counts if f >= 2)`. -/
def two_or_more_fail (fcs : List (Nat × Nat)) : Nat :=
  fcs.countP (fun p => 2 ≤ p.1)

/-- `over_50_percent_fail = sum(1 for f, total in fail_counts
if total > 0 and f / total >= 0.5)`.  The division is exact rational
division here; for the machine-word-sized counts involved the Python float
quotient compares to 0.5 and 1 exactly as the rational does. -/
def over_50_percent_fail (fcs : List (Nat × Nat)) : Nat :=
  fcs.countP (fun p => decide (0 < p.2 ∧ (1 : ℚ) / 2 ≤ (p.1 : ℚ) / (p.2 : ℚ)))

/-- `_100_percent_fail = sum(1 for f, total in fail_counts
if total > 0 and f / total == 1)`. -/
def _100_percent_fail (fcs : List (Nat × Nat)) : Nat :=
  fcs.countP (fun p => decide (0 < p.2 ∧ (p.1 : ℚ) / (p.2 : ℚ) = 1))

/-- Python `needle in hay` on strings: substring containment. -/
def charsHasPre : List Char → List Char → Bool
  | [], _ => true
  | _ :: _, [] => false
  | c :: cs, d :: ds => c == d && charsHasPre cs ds

/-- Substring test used for `"Z41" in status_raw`. -/
def strContains (hay needle : String) : Bool :=
  (List.range (hay.data.length + 1)).any
    (fun i => charsHasPre needle.data (hay.data.drop i))

/-- The tail of `Client.fetch_test_status`: `"Z41" in status_raw` followed
by `return TestStatus.PASS` / `return TestStatus.FAIL`.  Python `in` is a
substring test on a string, a membership test on a list or dict, and a
`TypeError` on any other value. -/
def validate_status_to_status : Json → Except PyErr TestStatus
  | .str s => .ok (if strContains s "Z41" then .PASS else .FAIL)
  | .arr xs =>
    .ok (if xs.any (fun x => jsonBeq x (.str "Z41")) then .PASS else .FAIL)
  | .obj gs => .ok (if (lookupField gs "Z41").isSome then .PASS else .FAIL)
  | _ => .error .typeError

/-- Embeds the response interpretation of `Client.fetch_test_status`
(models/wf/client.py), starting from the decoded JSON body `data` of a
successful request:

```
entries = data.get("query", {}).get("wikilambda_perform_test", [])
if not entries: raise NoTestResultFound(...)
status_raw = entries[0].get("validateStatus", "")
if "Z41" in status_raw: return TestStatus.PASS
return TestStatus.FAIL
```

Every Python operation that can raise on an ill-shaped response is kept as
`.error`: `.get` on a non-dict raises `AttributeError`, `entries[0]` on a
number raises `TypeError` (on a truthy dict `KeyError`, on a truthy string
it yields a one-character string whose `.get` raises `AttributeError`), and
`"Z41" in x` raises `TypeError` for non-container `x` while being a
membership test on lists and dicts. -/
def fetch_test_status_interpret (data : Json) : Except PyErr TestStatus :=
  match data with
  | .obj fs =>
    match (lookupField fs "query").getD (.obj []) with
    | .obj qs =>
      let entries := (lookupField qs "wikilambda_perform_test").getD (.arr [])
      if truthy entries then
        match entries with
        | .arr (e0 :: _) =>
          match e0 with
          | .obj es =>
            validate_status_to_status
              ((lookupField es "validateStatus").getD (.str ""))
          | _ => .error .attributeError
        | .arr [] => .error .indexError
        | .str _ => .error .attributeError
        | .obj _ => .error .keyError
        | _ => .error .typeError
      else .error .noTestResultFound
    | _ => .error .attributeError
  | _ => .error .attributeError

/-- A well-formed `wikilambda_perform_test` response body for `entries`:
`{"query": {"wikilambda_perform_test": entries}}`. -/
def mkResponse (entries : List Json) : Json :=
  .obj [("query", .obj [("wikilambda_perform_test", .arr entries)])]

/-- `[t.zid for t in entities]`: evaluates `zid` on each entity's raw data,
propagating the first `NoZidFound`. -/
def zids_of : List Json → Except PyErr (List Json)
  | [] => .ok []
  | t :: rest =>
    match zid t with
    | .error e => .error e
    | .ok z =>
      match zids_of rest with
      | .error e => .error e
      | .ok zs => .ok (z :: zs)

/-- Embeds the function-collection pass of `Z8Calculator.calculate`
(models/z8_calculator.py), after the tester and implementation maps are
built:

```
for line in f:
    processed += 1
    ...progress log...
    zf = Zfunction.from_json_line(line)
    if zf.is_correct_type:
        logger.debug(f"Working on {zf.link}")
        zf.extract_ztesters(self.ztester_map)
        logger.debug(..., zf.zid, [t.zid for t in zf.ztesters])
        zf.extract_zimpl(self.zimpl_map)
        logger.debug(..., zf.zid, [t.zid for t in zf.zimplementations])
        self.zfunctions.append(zf)
        zid_count += 1
        if zid_count >= config.MAX_FUNCTIONS: break
```

Unlike the map-building loop there is no `try/except` around the parse:
`Zfunction.from_json_line` catches `json.JSONDecodeError` only to log and
re-`raise` (models/wf/zentity.py), so a `none` line aborts the whole pass.
The collected functions are represented by their raw records.  The
`logger.debug` calls evaluate their arguments eagerly, so `zf.zid` (which
can raise `NoZidFound`) and `zf.zimplementations` are evaluated on the
correct-type path; `Zfunction` declares the field `zimpl`, not
`zimplementations`, so that attribute access raises `AttributeError`
(unreachable in practice: `Zfunction` inherits `EXPECTED_TYPE = None`, so
`is_correct_type` never returns `True`). -/
def calculate_collect_loop (ztester_map zimpl_map : String → Option Json)
    (MAX_FUNCTIONS : Nat) :
    List (Option Json) → List Json → Nat → Except PyErr (List Json)
  | [], zfunctions, _ => .ok zfunctions
  | none :: _, _, _ => .error .jsonDecodeError
  | some data :: rest, zfunctions, zid_count =>
    match is_correct_type Zfunction_EXPECTED_TYPE data with
    | .error e => .error e
    | .ok false =>
      calculate_collect_loop ztester_map zimpl_map MAX_FUNCTIONS rest
        zfunctions zid_count
    | .ok true =>
      match zid data with
      | .error e => .error e
      | .ok _ =>
        match extract_ztesters ztester_map data [] with
        | .error e => .error e
        | .ok ts =>
          match zids_of ts with
          | .error e => .error e
          | .ok _ =>
            match extract_zimpl zimpl_map data [] with
            | .error e => .error e
            | .ok _ => .error .attributeError

/-- Python dict lookup `result[zid]` on the map being built, keyed by
structural equality. -/
def lookupJ : List (Json × Json) → Json → Option Json
  | [], _ => none
  | (k, v) :: rest, key => if jsonBeq k key then some v else lookupJ rest key

/-- The candidate a source line contributes to a map build of kind
`EXPECTED_TYPE`, ignoring duplicate suppression: the pair (id, record) when
the line parses, is of the correct kind and has a truthy hashable id
(defined only for runs in which neither `is_correct_type` nor `zid`
raises). -/
def accepted (EXPECTED_TYPE : Option String) : Option Json → Option (Json × Json)
  | none => none
  | some data =>
    match is_correct_type EXPECTED_TYPE data, zid data with
    | .ok true, .ok z =>
      if truthy z && hashable z then some (z, data) else none
    | _, _ => none

mutual
/-- `jsonBeq` is structural equality. -/
theorem jsonBeq_iff : ∀ a b : Json, jsonBeq a b = true ↔ a = b
  | .null, b => by cases b <;> simp [jsonBeq]
  | .bool x, b => by cases b <;> simp [jsonBeq]
  | .num x, b => by cases b <;> simp [jsonBeq]
  | .str x, b => by cases b <;> simp [jsonBeq]
  | .arr xs, b => by
    cases b <;> simp [jsonBeq]
    exact jsonBeqList_iff xs _
  | .obj fs, b => by
    cases b <;> simp [jsonBeq]
    exact jsonBeqFields_iff fs _

theorem jsonBeqList_iff : ∀ xs ys : List Json, jsonBeqList xs ys = true ↔ xs = ys
  | [], ys => by cases ys <;> simp [jsonBeqList]
  | x :: xs, ys => by
    cases ys with
    | nil => simp [jsonBeqList]
    | cons y ys =>
      simp [jsonBeqList, Bool.and_eq_true, jsonBeq_iff x y, jsonBeqList_iff xs ys]

theorem jsonBeqFields_iff :
    ∀ xs ys : List (String × Json), jsonBeqFields xs ys = true ↔ xs = ys
  | [], ys => by cases ys <;> simp [jsonBeqFields]
  | (k, v) :: xs, ys => by
    cases ys with
    | nil => simp [jsonBeqFields]
    | cons y ys =>
      obtain ⟨k', v'⟩ := y
      simp [jsonBeqFields, Bool.and_eq_true, jsonBeq_iff v v',
        jsonBeqFields_iff xs ys, and_assoc]
end


/-- Structural strong induction over `Json`. -/
theorem jsonInduction (P : Json → Prop)
    (hnull : P .null) (hbool : ∀ b, P (.bool b)) (hnum : ∀ n, P (.num n))
    (hstr : ∀ s, P (.str s))
    (harr : ∀ xs, (∀ x ∈ xs, P x) → P (.arr xs))
    (hobj : ∀ fs, (∀ kv ∈ fs, P kv.2) → P (.obj fs)) : ∀ j, P j
  | .null => hnull
  | .bool b => hbool b
  | .num n => hnum n
  | .str s => hstr s
  | .arr xs =>
    harr xs (fun x hx =>
      jsonInduction P hnull hbool hnum hstr harr hobj x)
  | .obj fs =>
    hobj fs (fun kv hkv =>
      jsonInduction P hnull hbool hnum hstr harr hobj kv.2)
termination_by j => sizeOf j
decreasing_by
  · have := List.sizeOf_lt_of_mem hx
    simp at *
    omega
  · have h1 := List.sizeOf_lt_of_mem hkv
    obtain ⟨a, b⟩ := kv
    simp at *
    omega

/-- C1: the claim states that for every entity kind (Function,
Implementation, Tester), `is_correct_type` returns true iff the record's
`Z2K2.Z1K1` discriminator equals the kind's expected tag, false on a
mismatched or missing discriminator, and never raises.  On the code,
`Ztester` and `Zfunction` inherit `EXPECTED_TYPE = None`, so classifying
any record whose `Z2K2` is a dict evaluates `None.value` and raises
`AttributeError` — including a tester record whose discriminator is
exactly the tester tag `Z20`, where the claim (and the repo's own test
`test_is_function_true`) requires `True`.  A non-dict record raises even
for `Zimpl`.  Only `Zimpl` on dict records shows the claimed behaviour. -/
theorem C1_is_correct_type_raises :
    is_correct_type Ztester_EXPECTED_TYPE
      (.obj [("Z2K2", .obj [("Z1K1", .str "Z20")])]) = .error .attributeError ∧
    is_correct_type Zfunction_EXPECTED_TYPE
      (.obj [("Z2K2", .obj [("Z1K1", .str "Z8")])]) = .error .attributeError ∧
    is_correct_type Zimpl_EXPECTED_TYPE (.arr []) = .error .attributeError ∧
    is_correct_type Zimpl_EXPECTED_TYPE
      (.obj [("Z2K2", .obj [("Z1K1", .str "Z14")])]) = .ok true ∧
    is_correct_type Zimpl_EXPECTED_TYPE
      (.obj [("Z2K2", .obj [("Z1K1", .str "Z8")])]) = .ok false :=
  ⟨rfl, rfl, rfl, rfl, rfl⟩

theorem pySubscript_error_cases {j : Json} {k : String} {e : PyErr}
    (h : pySubscript j k = .error e) : e = .keyError ∨ e = .typeError := by
  cases j <;> simp [pySubscript] at h <;> try exact Or.inr h.symm
  rename_i fs
  cases hf : lookupField fs k <;> rw [hf] at h <;> simp at h
  exact Or.inl h.symm

theorem extract_connected_path_error_cases {data : Json} {e : PyErr}
    (h : extract_connected_path data = .error e) :
    e = .keyError ∨ e = .typeError := by
  unfold extract_connected_path at h
  cases h1 : pySubscript data "Z2K2" with
  | error e1 =>
    rw [h1] at h
    simp at h
    subst h
    exact pySubscript_error_cases h1
  | ok a =>
    rw [h1] at h
    simp at h
    exact pySubscript_error_cases h

/-- C10: `extract_connected` is total — it never propagates an exception;
when `data["Z2K2"]["Z8K4"]` is a list it returns that list with its first
element (the type tag) removed, and in every other case (path missing, an
intermediate value not a dict, or a non-list field value — in particular a
bare scalar id) it returns the empty list, never a singleton. -/
theorem C10_extract_connected_total (data : Json) :
    (∃ r, extract_connected data = .ok r) ∧
    (∀ xs, extract_connected_path data = .ok (.arr xs) →
      extract_connected data = .ok (xs.drop 1)) ∧
    ((∀ xs, extract_connected_path data ≠ .ok (.arr xs)) →
      extract_connected data = .ok []) := by
  cases h : extract_connected_path data with
  | error e =>
    have he := extract_connected_path_error_cases h
    refine ⟨⟨[], ?_⟩, ?_, ?_⟩
    · unfold extract_connected
      rw [h]
      simp [he]
    · intro xs hxs
      exact absurd hxs (by simp)
    · intro _
      unfold extract_connected
      rw [h]
      simp [he]
  | ok v =>
    cases v with
    | arr xs =>
      refine ⟨⟨xs.drop 1, ?_⟩, ?_, ?_⟩
      · unfold extract_connected
        rw [h]
      · intro ys hys
        simp at hys
        subst hys
        unfold extract_connected
        rw [h]
      · intro hne
        exact absurd rfl (hne xs)
    | null =>
      exact ⟨⟨[], by unfold extract_connected; rw [h]⟩,
        fun xs hxs => by simp at hxs,
        fun _ => by unfold extract_connected; rw [h]⟩
    | bool b =>
      exact ⟨⟨[], by unfold extract_connected; rw [h]⟩,
        fun xs hxs => by simp at hxs,
        fun _ => by unfold extract_connected; rw [h]⟩
    | num n =>
      exact ⟨⟨[], by unfold extract_connected; rw [h]⟩,
        fun xs hxs => by simp at hxs,
        fun _ => by unfold extract_connected; rw [h]⟩
    | str s =>
      exact ⟨⟨[], by unfold extract_connected; rw [h]⟩,
        fun xs hxs => by simp at hxs,
        fun _ => by unfold extract_connected; rw [h]⟩
    | obj fs =>
      exact ⟨⟨[], by unfold extract_connected; rw [h]⟩,
        fun xs hxs => by simp at hxs,
        fun _ => by unfold extract_connected; rw [h]⟩

theorem C10_extract_connected_total_witness :
    extract_connected
      (.obj [("Z2K2", .obj [("Z8K4",
        .arr [.str "Z14", .str "Z101", .str "Z102"])])]) =
      .ok [.str "Z101", .str "Z102"] ∧
    extract_connected (.obj [("Z2K2", .obj [("Z8K4", .str "Z101")])]) =
      .ok [] := by
  constructor
  · exact (C10_extract_connected_total _).2.1
      [.str "Z14", .str "Z101", .str "Z102"] rfl
  · refine (C10_extract_connected_total _).2.2 ?_
    intro xs h
    rw [show extract_connected_path
        (.obj [("Z2K2", .obj [("Z8K4", .str "Z101")])]) =
        Except.ok (.str "Z101") from rfl] at h
    simp at h

theorem mem_firstOccurrences :
    ∀ (zids : List String) (seen : List String) (z : String),
      z ∈ firstOccurrences seen zids ↔ (z ∈ zids ∧ z ∉ seen)
  | [], seen, z => by simp [firstOccurrences]
  | a :: rest, seen, z => by
    by_cases ha : a ∈ seen
    · simp only [firstOccurrences, if_pos ha, mem_firstOccurrences rest seen z,
        List.mem_cons]
      constructor
      · rintro ⟨h1, h2⟩
        exact ⟨Or.inr h1, h2⟩
      · rintro ⟨h1 | h1, h2⟩
        · subst h1
          exact absurd ha h2
        · exact ⟨h1, h2⟩
    · simp only [firstOccurrences, if_neg ha, List.mem_cons,
        mem_firstOccurrences rest (a :: seen) z]
      by_cases hz : z = a
      · subst hz
        simp [ha]
      · simp [hz]

theorem nodup_firstOccurrences :
    ∀ (zids : List String) (seen : List String),
      (firstOccurrences seen zids).Nodup
  | [], seen => by simp [firstOccurrences]
  | a :: rest, seen => by
    by_cases ha : a ∈ seen
    · simp only [firstOccurrences, if_pos ha]
      exact nodup_firstOccurrences rest seen
    · simp only [firstOccurrences, if_neg ha]
      refine List.Nodup.cons ?_ (nodup_firstOccurrences rest (a :: seen))
      intro hmem
      have := (mem_firstOccurrences rest (a :: seen) a).mp hmem
      exact this.2 (List.mem_cons_self a seen)

theorem lookupResult_map_pairs {α : Type} :
    ∀ (l : List String) (f : String → α) (z : String),
      lookupResult (l.map fun x => (x, f x)) z =
        if z ∈ l then some (f z) else none
  | [], _, _ => by simp [lookupResult]
  | a :: rest, f, z => by
    by_cases hz : a = z
    · subst hz
      simp [lookupResult]
    · simp only [List.map_cons, lookupResult, if_neg hz,
        lookupResult_map_pairs rest f z, List.mem_cons]
      have : ¬z = a := fun h => hz h.symm
      simp [this]

/-- C7: `bulk_fetch_connected_implementations` is total over its input ids:
the result maps every input id (and nothing else) to the value of its own
remote query, with a failed query mapped to the empty list; one id's
failure does not abort the batch or alter any other id's entry, and no id
gets more than one entry. -/
theorem C7_bulk_fetch_total {ε : Type}
    (fetch : String → Except ε (List String)) (zids : List String)
    (z : String) :
    (lookupResult (bulk_fetch_connected_implementations fetch zids) z =
      if z ∈ zids then some (fetch_fallback fetch z) else none) ∧
    (∀ e, fetch z = .error e → z ∈ zids →
      lookupResult (bulk_fetch_connected_implementations fetch zids) z =
        some []) ∧
    ((bulk_fetch_connected_implementations fetch zids).map Prod.fst).Nodup := by
  refine ⟨?_, ?_, ?_⟩
  · rw [bulk_fetch_connected_implementations,
      lookupResult_map_pairs (firstOccurrences [] zids) (fetch_fallback fetch) z]
    by_cases hz : z ∈ zids
    · rw [if_pos ((mem_firstOccurrences zids [] z).mpr ⟨hz, by simp⟩), if_pos hz]
    · rw [if_neg (fun hmem => hz ((mem_firstOccurrences zids [] z).mp hmem).1),
        if_neg hz]
  · intro e he hz
    rw [bulk_fetch_connected_implementations,
      lookupResult_map_pairs (firstOccurrences [] zids) (fetch_fallback fetch) z,
      if_pos ((mem_firstOccurrences zids [] z).mpr ⟨hz, by simp⟩)]
    simp [fetch_fallback, he]
  · rw [bulk_fetch_connected_implementations, List.map_map]
    have : (Prod.fst ∘ fun z => (z, fetch_fallback fetch z)) = id := by
      funext x
      rfl
    rw [this, List.map_id]
    exact nodup_firstOccurrences zids []

theorem C7_bulk_fetch_total_witness :
    lookupResult
      (bulk_fetch_connected_implementations
        (fun s => if s = "Z1" then .ok ["Z14a"] else .error ()) ["Z1", "Z2"])
      "Z2" = some [] :=
  (C7_bulk_fetch_total
    (fun s => if s = "Z1" then .ok ["Z14a"] else .error ()) ["Z1", "Z2"]
    "Z2").2.1 () rfl (by simp)

theorem resolve_loop_append {α : Type} (map : String → Option α) :
    ∀ (ids : List Json) (acc : List α),
      resolve_loop map ids acc =
        (resolve_loop map ids []).map (fun r => acc ++ r)
  | [], acc => by simp [resolve_loop, Except.map]
  | z :: rest, acc => by
    cases hm : mapGetJ map z with
    | error e => simp [resolve_loop, hm, Except.map]
    | ok o =>
      cases o with
      | none => simp [resolve_loop, hm, resolve_loop_append map rest acc]
      | some t =>
        simp only [resolve_loop, hm, List.nil_append]
        rw [resolve_loop_append map rest (acc ++ [t]),
          resolve_loop_append map rest [t]]
        cases resolve_loop map rest [] with
        | error e => simp [Except.map]
        | ok r => simp [Except.map]

theorem extract_field_append {α : Type} (key : String)
    (map : String → Option α) (data : Json) (acc : List α) :
    extract_field key map data acc =
      (extract_field key map data []).map (fun r => acc ++ r) := by
  cases data with
  | obj fs =>
    simp only [extract_field]
    cases hf : lookupField fs "Z2K2" with
    | none => simp [Except.map]
    | some z2k2 =>
      cases z2k2 with
      | obj inner =>
        cases hv : lookupField inner key with
        | none => simp [hv, Except.map]
        | some v =>
          by_cases ht : truthy v = true
          · cases v with
            | str s =>
              simp [hv, ht, resolve_loop_append map [Json.str s] acc]
            | arr xs =>
              simp [hv, ht, resolve_loop_append map xs acc]
            | obj gs =>
              simp [hv, ht,
                resolve_loop_append map (gs.map fun kv => Json.str kv.1) acc]
            | null => simp [truthy] at ht
            | bool b => simp [hv, ht, Except.map]
            | num n => simp [hv, ht, Except.map]
          · simp [hv, ht, Except.map]
      | null => simp [Except.map]
      | bool b => simp [Except.map]
      | num n => simp [Except.map]
      | str s => simp [Except.map]
      | arr xs => simp [Except.map]
  | null => simp [extract_field, Except.map]
  | bool b => simp [extract_field, Except.map]
  | num n => simp [extract_field, Except.map]
  | str s => simp [extract_field, Except.map]
  | arr xs => simp [extract_field, Except.map]

/-- C2 (amended): `extract_ztesters` and `extract_zimpl` are not
idempotent — each call appends the resolved entities of the source field
to the function's current list, so with current list `acc` the result is
`acc ++ r` where `r` is the single-call-from-empty resolution; in
particular a second call with the same maps appends `r` again, duplicating
every resolved entry instead of leaving the sequences unchanged.  A single
call from the empty state introduces no duplication beyond what the source
field itself specifies. -/
theorem C2_extract_appends {α : Type} (tmap imap : String → Option α)
    (data : Json) (acc : List α) :
    (extract_ztesters tmap data acc =
      (extract_ztesters tmap data []).map (fun r => acc ++ r)) ∧
    (extract_zimpl imap data acc =
      (extract_zimpl imap data []).map (fun r => acc ++ r)) ∧
    (∀ r, extract_ztesters tmap data [] = .ok r →
      extract_ztesters tmap data r = .ok (r ++ r)) ∧
    (∀ r, extract_zimpl imap data [] = .ok r →
      extract_zimpl imap data r = .ok (r ++ r)) := by
  refine ⟨extract_field_append "Z8K3" tmap data acc,
    extract_field_append "Z8K4" imap data acc, ?_, ?_⟩
  · intro r hr
    rw [extract_ztesters, extract_field_append "Z8K3" tmap data r]
    rw [extract_ztesters] at hr
    rw [hr]
    rfl
  · intro r hr
    rw [extract_zimpl, extract_field_append "Z8K4" imap data r]
    rw [extract_zimpl] at hr
    rw [hr]
    rfl

theorem C2_extract_appends_witness :
    extract_ztesters (fun s => if s = "T1" then some "T1" else none)
      (.obj [("Z2K2", .obj [("Z8K3", .str "T1")])]) ["T1"] =
      .ok ["T1", "T1"] :=
  (C2_extract_appends (fun s => if s = "T1" then some "T1" else none)
    (fun _ => (none : Option String))
    (.obj [("Z2K2", .obj [("Z8K3", .str "T1")])]) ["T1"]).2.2.1 ["T1"] rfl

/-- C2 counterexample: resolving testers twice with the same map is not
the same as resolving once — for a function record whose `Z8K3` field is
the scalar id `"T1"` and a map containing `"T1"`, one call yields
`["T1"]` but a second call on the resulting state yields `["T1", "T1"]`. -/
theorem C2_counterexample :
    (Except.ok ["T1"] : Except PyErr (List String)).bind
      (fun r1 => extract_ztesters
        (fun s => if s = "T1" then some "T1" else none)
        (.obj [("Z2K2", .obj [("Z8K3", .str "T1")])]) r1) =
      .ok ["T1", "T1"] ∧
    extract_ztesters (fun s => if s = "T1" then some "T1" else none)
      (.obj [("Z2K2", .obj [("Z8K3", .str "T1")])]) [] = .ok ["T1"] ∧
    (Except.ok ["T1", "T1"] : Except PyErr (List String)) ≠ .ok ["T1"] :=
  ⟨rfl, rfl, by simp⟩

/-- C6: the summary buckets of `write_summary_statistics` count functions
with exactly 0, exactly 1, exactly 2 and at least 2 failed tests, plus
functions with failure rate at least 50% and exactly 100% (rate
failed/total, guarded by `total > 0`), so a zero-test function contributes
to no rate-based bucket; on failure counts [0,1,2,3,0,5] with totals
[5,5,5,5,0,5] the 0-failed bucket is 2, the 1-failed bucket is 1 and the
2-or-more bucket is 3. -/
theorem C6_summary_buckets :
    fail_counts
      [[List.replicate 5 TestStatus.PASS],
       [TestStatus.FAIL :: List.replicate 4 TestStatus.PASS],
       [TestStatus.FAIL :: TestStatus.FAIL :: List.replicate 3 TestStatus.PASS],
       [TestStatus.FAIL :: TestStatus.FAIL :: TestStatus.FAIL ::
         List.replicate 2 TestStatus.PASS],
       [[]],
       [List.replicate 5 TestStatus.FAIL]] =
      [(0, 5), (1, 5), (2, 5), (3, 5), (0, 0), (5, 5)] ∧
    zero_fail [(0, 5), (1, 5), (2, 5), (3, 5), (0, 0), (5, 5)] = 2 ∧
    one_fail [(0, 5), (1, 5), (2, 5), (3, 5), (0, 0), (5, 5)] = 1 ∧
    two_fail [(0, 5), (1, 5), (2, 5), (3, 5), (0, 0), (5, 5)] = 1 ∧
    two_or_more_fail [(0, 5), (1, 5), (2, 5), (3, 5), (0, 0), (5, 5)] = 3 ∧
    over_50_percent_fail [(0, 5), (1, 5), (2, 5), (3, 5), (0, 0), (5, 5)] = 2 ∧
    _100_percent_fail [(0, 5), (1, 5), (2, 5), (3, 5), (0, 0), (5, 5)] = 1 ∧
    (∀ f : Nat, over_50_percent_fail [(f, 0)] = 0 ∧
      _100_percent_fail [(f, 0)] = 0) := by
  refine ⟨rfl, by decide, by decide, by decide, by decide,
    by norm_num [over_50_percent_fail, List.countP_cons],
    by norm_num [_100_percent_fail, List.countP_cons], ?_⟩
  intro f
  constructor
  · simp [over_50_percent_fail, List.countP_cons]
  · simp [_100_percent_fail, List.countP_cons]

/-- C8: on a successful response, `fetch_test_status` raises
`NoTestResultFound` exactly when the result set is empty or absent (empty
entry list, missing `wikilambda_perform_test` field, or missing `query`
envelope); on a well-formed nonempty response it inspects the first
entry's `validateStatus` string and returns `PASS` iff it contains the
pass marker token `"Z41"`, `FAIL` for every other string. -/
theorem C8_fetch_test_status :
    (∀ entries : List Json, entries = [] →
      fetch_test_status_interpret (mkResponse entries) =
        .error .noTestResultFound) ∧
    fetch_test_status_interpret (.obj []) = .error .noTestResultFound ∧
    fetch_test_status_interpret (.obj [("query", .obj [])]) =
      .error .noTestResultFound ∧
    (∀ (es : List (String × Json)) (rest : List Json),
      fetch_test_status_interpret (mkResponse (.obj es :: rest)) =
        validate_status_to_status
          ((lookupField es "validateStatus").getD (.str ""))) ∧
    (∀ s : String, validate_status_to_status (.str s) =
      .ok (if strContains s "Z41" then .PASS else .FAIL)) := by
  refine ⟨?_, rfl, rfl, ?_, fun s => rfl⟩
  · intro entries he
    subst he
    rfl
  · intro es rest
    rfl

theorem C8_fetch_test_status_witness :
    fetch_test_status_interpret (mkResponse []) = .error .noTestResultFound :=
  C8_fetch_test_status.1 [] rfl

mutual
theorem mn_flag_true : ∀ (j : Json) (p : Bool × Json),
    p ∈ markedNodes true j → p.1 = true
  | .obj fs, p, hp => by
    simp only [markedNodes, Bool.true_or, List.mem_cons] at hp
    rcases hp with h | h
    · rw [h]
    · exact mnF_flag_true fs p h
  | .arr xs, p, hp => by
    simp only [markedNodes, List.mem_cons] at hp
    rcases hp with h | h
    · rw [h]
    · exact mnL_flag_true xs p h
  | .null, p, hp => by
    simp only [markedNodes, List.mem_singleton] at hp
    rw [hp]
  | .bool b, p, hp => by
    simp only [markedNodes, List.mem_singleton] at hp
    rw [hp]
  | .num n, p, hp => by
    simp only [markedNodes, List.mem_singleton] at hp
    rw [hp]
  | .str s, p, hp => by
    simp only [markedNodes, List.mem_singleton] at hp
    rw [hp]

theorem mnF_flag_true : ∀ (fs : List (String × Json)) (p : Bool × Json),
    p ∈ markedNodesFields true fs → p.1 = true
  | [], p, hp => by simp [markedNodesFields] at hp
  | kv :: rest, p, hp => by
    simp only [markedNodesFields, List.mem_append] at hp
    rcases hp with h | h
    · exact mn_flag_true kv.2 p h
    · exact mnF_flag_true rest p h

theorem mnL_flag_true : ∀ (xs : List Json) (p : Bool × Json),
    p ∈ markedNodesList true xs → p.1 = true
  | [], p, hp => by simp [markedNodesList] at hp
  | x :: rest, p, hp => by
    simp only [markedNodesList, List.mem_append] at hp
    rcases hp with h | h
    · exact mn_flag_true x p h
    · exact mnL_flag_true rest p h
end

mutual
theorem count_aliases_eq_outermost :
    ∀ j : Json, count_aliases j =
      ((markedNodes false j).filter (fun p => !p.1 && hasZ1K1 p.2)).length
  | .obj fs => by
    cases h : (lookupField fs "Z1K1").isSome with
    | true =>
      have hnil : (markedNodesFields true fs).filter
          (fun p => !p.1 && hasZ1K1 p.2) = [] := by
        rw [List.filter_eq_nil_iff]
        rintro ⟨pb, pj⟩ hp
        have h2 := mnF_flag_true fs (pb, pj) hp
        simp only at h2
        subst h2
        simp
      simp only [count_aliases, h, markedNodes, Bool.false_or,
        List.filter_cons]
      simp [hasZ1K1, h, hnil]
      intro b hb
      exact absurd (mnF_flag_true fs (false, b) hb) (by simp)
    | false =>
      simp only [count_aliases, h, markedNodes, Bool.false_or,
        List.filter_cons]
      simp [hasZ1K1, h, count_aliases_fields_eq fs]
  | .arr xs => by
    simp only [count_aliases, markedNodes, List.filter_cons, hasZ1K1,
      Bool.and_false, if_false]
    exact count_aliases_list_eq xs
  | .null => by simp [count_aliases, markedNodes, hasZ1K1]
  | .bool b => by simp [count_aliases, markedNodes, hasZ1K1]
  | .num n => by simp [count_aliases, markedNodes, hasZ1K1]
  | .str s => by simp [count_aliases, markedNodes, hasZ1K1]

theorem count_aliases_fields_eq :
    ∀ fs : List (String × Json), count_aliases_fields fs =
      ((markedNodesFields false fs).filter
        (fun p => !p.1 && hasZ1K1 p.2)).length
  | [] => by simp [count_aliases_fields, markedNodesFields]
  | kv :: rest => by
    simp only [count_aliases_fields, markedNodesFields, List.filter_append,
      List.length_append]
    rw [count_aliases_eq_outermost kv.2, count_aliases_fields_eq rest]

theorem count_aliases_list_eq :
    ∀ xs : List Json, count_aliases_list xs =
      ((markedNodesList false xs).filter
        (fun p => !p.1 && hasZ1K1 p.2)).length
  | [] => by simp [count_aliases_list, markedNodesList]
  | x :: rest => by
    simp only [count_aliases_list, markedNodesList, List.filter_append,
      List.length_append]
    rw [count_aliases_eq_outermost x, count_aliases_list_eq rest]
end

/-- C5 (amended): `count_aliases` counts the outermost
discriminator-carrying sub-records only — every object carrying `Z1K1`
that is not nested inside another `Z1K1`-carrying object; objects nested
inside a discriminator-carrying object are not counted, because the walk
returns 1 at a `Z1K1`-carrying dict without descending into it. -/
theorem C5_count_aliases_outermost (j : Json) :
    count_aliases j = outermostDiscriminatorCount j :=
  count_aliases_eq_outermost j

/-- C5 counterexample: for the record `{"Z1K1": {"Z1K1": "Z6"}}` the tree
contains two discriminator-carrying objects (one nested inside the other),
so the claimed count is 2, but `count_aliases` returns 1. -/
theorem C5_counterexample :
    count_aliases (.obj [("Z1K1", .obj [("Z1K1", .str "Z6")])]) = 1 ∧
    allDiscriminatorCount (.obj [("Z1K1", .obj [("Z1K1", .str "Z6")])]) = 2 ∧
    count_aliases (.obj [("Z1K1", .obj [("Z1K1", .str "Z6")])]) ≠
      allDiscriminatorCount (.obj [("Z1K1", .obj [("Z1K1", .str "Z6")])]) :=
  ⟨rfl, rfl, by decide⟩

theorem build_map_loop_replicate_none (E : Option String) :
    ∀ (n : Nat) (p : Nat) (acc : List (Json × Json)),
      build_map_loop E (List.replicate n none) p acc = .ok (p + n, acc)
  | 0, p, acc => by simp [build_map_loop]
  | n + 1, p, acc => by
    rw [List.replicate_succ]
    simp only [build_map_loop]
    rw [build_map_loop_replicate_none E n (p + 1) acc]
    simp
    omega

/-- C3 (amended): a line that fails to parse as JSON is non-fatal in the
map-building passes — it is skipped, counted only in `processed` and never
collected (a stream of n malformed lines yields n processed lines and an
empty map) — but in the function-collection pass of the orchestrator
(`Z8Calculator.calculate`) the parse error of `Zfunction.from_json_line`
is not caught, so a malformed line aborts the whole pass instead of being
skipped. -/
theorem C3_malformed_line :
    (∀ (E : Option String) (rest : List (Option Json)) (p : Nat)
       (acc : List (Json × Json)),
      build_map_loop E (none :: rest) p acc =
        build_map_loop E rest (p + 1) acc) ∧
    (∀ (E : Option String) (n : Nat),
      ZMap_build_map E (List.replicate n none) = .ok (n, [])) ∧
    (∀ (tmap imap : String → Option Json) (maxF : Nat)
       (rest : List (Option Json)) (zfs : List Json) (c : Nat),
      calculate_collect_loop tmap imap maxF (none :: rest) zfs c =
        .error .jsonDecodeError) := by
  refine ⟨fun E rest p acc => rfl, ?_, fun tmap imap maxF rest zfs c => rfl⟩
  intro E n
  rw [ZMap_build_map, build_map_loop_replicate_none E n 0 []]
  simp

/-- C3 counterexample: a single malformed line makes the
function-collection pass of `Z8Calculator.calculate` fail with
`JSONDecodeError` instead of skipping it and returning the (empty) list of
collected functions. -/
theorem C3_counterexample :
    calculate_collect_loop (fun _ => none) (fun _ => none) 800 [none] [] 0 =
      .error .jsonDecodeError ∧
    (Except.error .jsonDecodeError : Except PyErr (List Json)) ≠ .ok [] :=
  ⟨rfl, by simp⟩

theorem build_map_loop_ok_zid (E : Option String) :
    ∀ (lines : List (Option Json)) (p : Nat) (acc : List (Json × Json))
      (pm : Nat × List (Json × Json)),
      build_map_loop E lines p acc = .ok pm →
      ∀ data, some data ∈ lines → is_correct_type E data = .ok true →
        ∃ z, zid data = .ok z := by
  intro lines
  induction lines with
  | nil =>
    intro p acc pm h data hd
    simp at hd
  | cons line rest ih =>
    intro p acc pm h data hd hc
    cases line with
    | none =>
      rcases List.mem_cons.mp hd with h1 | h1
      · exact absurd h1 (by simp)
      · exact ih (p + 1) acc pm (by simpa [build_map_loop] using h) data h1 hc
    | some d =>
      rcases List.mem_cons.mp hd with h1 | h1
      · have hdd : data = d := by
          injection h1
        subst hdd
        simp only [build_map_loop, hc] at h
        cases hz : zid data with
        | error e =>
          rw [hz] at h
          simp at h
        | ok z => exact ⟨z, rfl⟩
      · simp only [build_map_loop] at h
        cases hct : is_correct_type E d with
        | error e =>
          rw [hct] at h
          simp at h
        | ok b =>
          rw [hct] at h
          cases b with
          | false => exact ih (p + 1) acc pm (by simpa using h) data h1 hc
          | true =>
            cases hz : zid d with
            | error e =>
              rw [hz] at h
              simp at h
            | ok z =>
              rw [hz] at h
              simp only [] at h
              by_cases ht : truthy z = true
              · rw [if_pos ht] at h
                by_cases hh : hashable z = true
                · rw [if_pos hh] at h
                  by_cases hck : containsKeyJ acc z = true
                  · rw [if_pos hck] at h
                    exact ih (p + 1) acc pm h data h1 hc
                  · rw [if_neg hck] at h
                    exact ih (p + 1) (acc ++ [(z, d)]) pm h data h1 hc
                · rw [if_neg hh] at h
                  simp at h
              · rw [if_neg ht] at h
                exact ih (p + 1) acc pm h data h1 hc

/-- C4 (amended): during map building, a record of the correct kind whose
id path is missing or malformed raises `NoZidFound`, which is not caught —
the exception propagates out of `build_map` and aborts the build (no map
is produced from the remaining records).  Consequently a completed build
contains an extractable id for every correct-kind parsed line; only
records with a falsy (e.g. empty) id are excluded non-fatally. -/
theorem C4_build_map_nozid_fatal :
    (∀ (E : Option String) (data : Json) (rest : List (Option Json))
       (p : Nat) (acc : List (Json × Json)) (e : PyErr),
      is_correct_type E data = .ok true → zid data = .error e →
      build_map_loop E (some data :: rest) p acc = .error e) ∧
    (∀ (E : Option String) (lines : List (Option Json))
       (pm : Nat × List (Json × Json)),
      ZMap_build_map E lines = .ok pm →
      ∀ data, some data ∈ lines → is_correct_type E data = .ok true →
        ∃ z, zid data = .ok z) := by
  constructor
  · intro E data rest p acc e h1 h2
    simp [build_map_loop, h1, h2]
  · intro E lines pm h
    exact build_map_loop_ok_zid E lines 0 [] pm h

theorem C4_build_map_nozid_fatal_witness :
    build_map_loop (some "Z14")
      [some (.obj [("Z2K2", .obj [("Z1K1", .str "Z14")])])] 0 [] =
      .error .noZidFound :=
  C4_build_map_nozid_fatal.1 (some "Z14")
    (.obj [("Z2K2", .obj [("Z1K1", .str "Z14")])]) [] 0 [] .noZidFound rfl rfl

/-- C4 counterexample: a stream with one correct-kind record lacking the
id path (`{"Z2K2": {"Z1K1": "Z14"}}`) followed by a well-formed record
makes `ZMap.build_map` raise `NoZidFound` instead of excluding the bad
record and building the map from the remaining one. -/
theorem C4_counterexample :
    ZMap_build_map (some "Z14")
      [some (.obj [("Z2K2", .obj [("Z1K1", .str "Z14")])]),
       some (.obj [("Z2K1", .obj [("Z1K1", .str "Z6"), ("Z6K1", .str "Z102")]),
         ("Z2K2", .obj [("Z1K1", .str "Z14")])])] = .error .noZidFound ∧
    (Except.error .noZidFound :
        Except PyErr (Nat × List (Json × Json))) ≠
      .ok (2, [(.str "Z102",
        .obj [("Z2K1", .obj [("Z1K1", .str "Z6"), ("Z6K1", .str "Z102")]),
          ("Z2K2", .obj [("Z1K1", .str "Z14")])])]) :=
  ⟨rfl, fun h => Except.noConfusion h⟩

theorem jsonBeq_refl (a : Json) : jsonBeq a a = true :=
  (jsonBeq_iff a a).mpr rfl

theorem containsKeyJ_false_iff :
    ∀ (m : List (Json × Json)) (k : Json),
      containsKeyJ m k = false ↔ ∀ p ∈ m, p.1 ≠ k
  | [], k => by simp [containsKeyJ]
  | (a, v) :: rest, k => by
    simp only [containsKeyJ, Bool.or_eq_false_iff, List.mem_cons,
      containsKeyJ_false_iff rest k]
    constructor
    · rintro ⟨h1, h2⟩ p hp
      rcases hp with hp | hp
      · subst hp
        intro hak
        have ha : a = k := hak
        rw [← ha] at h1
        rw [jsonBeq_refl] at h1
        exact Bool.noConfusion h1
      · exact h2 p hp
    · intro h
      refine ⟨?_, fun p hp => h p (Or.inr hp)⟩
      have := h (a, v) (Or.inl rfl)
      cases hb : jsonBeq a k
      · rfl
      · exact absurd ((jsonBeq_iff a k).mp hb) this

theorem containsKeyJ_append :
    ∀ (a b : List (Json × Json)) (k : Json),
      containsKeyJ (a ++ b) k = (containsKeyJ a k || containsKeyJ b k)
  | [], b, k => by simp [containsKeyJ]
  | (x, v) :: rest, b, k => by
    simp [containsKeyJ, containsKeyJ_append rest b k, Bool.or_assoc]

theorem lookupJ_none :
    ∀ (m : List (Json × Json)) (k : Json),
      containsKeyJ m k = false → lookupJ m k = none
  | [], k, _ => rfl
  | (a, v) :: rest, k, h => by
    simp only [containsKeyJ, Bool.or_eq_false_iff] at h
    simp only [lookupJ, h.1, Bool.false_eq_true, if_false]
    exact lookupJ_none rest k h.2

theorem lookupJ_append_right :
    ∀ (a b : List (Json × Json)) (k : Json),
      containsKeyJ a k = false → lookupJ (a ++ b) k = lookupJ b k
  | [], b, k, _ => rfl
  | (x, v) :: rest, b, k, h => by
    simp only [containsKeyJ, Bool.or_eq_false_iff] at h
    simp only [List.cons_append, lookupJ, h.1, Bool.false_eq_true, if_false]
    exact lookupJ_append_right rest b k h.2

theorem build_map_loop_extends (E : Option String)
    (lines : List (Option Json)) (p : Nat) (acc : List (Json × Json)) :
    ∀ p' m, build_map_loop E lines p acc = .ok (p', m) →
      ∃ ext, m = acc ++ ext := by
  refine build_map_loop.induct E
    (fun lines p acc => ∀ p' m, build_map_loop E lines p acc = .ok (p', m) →
      ∃ ext, m = acc ++ ext) ?_ ?_ ?_ ?_ ?_ ?_ ?_ ?_ ?_ lines p acc
  · intro processed result p' m h
    simp only [build_map_loop, Except.ok.injEq, Prod.mk.injEq] at h
    exact ⟨[], by simp [← h.2]⟩
  · intro rest processed result ih p' m h
    simp only [build_map_loop] at h
    exact ih p' m h
  · intro data rest processed result e he p' m h
    simp [build_map_loop, he] at h
  · intro data rest processed result hc ih p' m h
    simp only [build_map_loop, hc] at h
    exact ih p' m h
  · intro data rest processed result hc e hz p' m h
    simp [build_map_loop, hc, hz] at h
  · intro data rest processed result hc z hz ht hh hck ih p' m h
    simp [build_map_loop, hc, hz, ht, hh, hck] at h
    exact ih p' m h
  · intro data rest processed result hc z hz ht hh hck ih p' m h
    simp [build_map_loop, hc, hz, ht, hh, hck] at h
    obtain ⟨ext, hext⟩ := ih p' m h
    exact ⟨(z, data) :: ext, by simpa using hext⟩
  · intro data rest processed result hc z hz ht hh p' m h
    simp [build_map_loop, hc, hz, ht, hh] at h
  · intro data rest processed result hc z hz ht ih p' m h
    simp [build_map_loop, hc, hz, ht] at h
    exact ih p' m h

theorem build_map_loop_members (E : Option String)
    (lines : List (Option Json)) (p : Nat) (acc : List (Json × Json)) :
    ∀ p' m, build_map_loop E lines p acc = .ok (p', m) →
      ∀ x ∈ m, x ∈ acc ∨
        (zid x.2 = .ok x.1 ∧ is_correct_type E x.2 = .ok true ∧
          truthy x.1 = true ∧ hashable x.1 = true) := by
  refine build_map_loop.induct E
    (fun lines p acc => ∀ p' m, build_map_loop E lines p acc = .ok (p', m) →
      ∀ x ∈ m, x ∈ acc ∨
        (zid x.2 = .ok x.1 ∧ is_correct_type E x.2 = .ok true ∧
          truthy x.1 = true ∧ hashable x.1 = true))
    ?_ ?_ ?_ ?_ ?_ ?_ ?_ ?_ ?_ lines p acc
  · intro processed result p' m h x hx
    simp only [build_map_loop, Except.ok.injEq, Prod.mk.injEq] at h
    rw [← h.2] at hx
    exact Or.inl hx
  · intro rest processed result ih p' m h
    simp only [build_map_loop] at h
    exact ih p' m h
  · intro data rest processed result e he p' m h
    simp [build_map_loop, he] at h
  · intro data rest processed result hc ih p' m h
    simp only [build_map_loop, hc] at h
    exact ih p' m h
  · intro data rest processed result hc e hz p' m h
    simp [build_map_loop, hc, hz] at h
  · intro data rest processed result hc z hz ht hh hck ih p' m h
    simp [build_map_loop, hc, hz, ht, hh, hck] at h
    exact ih p' m h
  · intro data rest processed result hc z hz ht hh hck ih p' m h
    simp [build_map_loop, hc, hz, ht, hh, hck] at h
    intro x hx
    rcases ih p' m h x hx with hmem | hP
    · rcases List.mem_append.mp hmem with h1 | h1
      · exact Or.inl h1
      · refine Or.inr ?_
        have hx2 : x = (z, data) := by simpa using h1
        subst hx2
        exact ⟨hz, hc, ht, hh⟩
    · exact Or.inr hP
  · intro data rest processed result hc z hz ht hh p' m h
    simp [build_map_loop, hc, hz, ht, hh] at h
  · intro data rest processed result hc z hz ht ih p' m h
    simp [build_map_loop, hc, hz, ht] at h
    exact ih p' m h

theorem build_map_loop_pairwise (E : Option String)
    (lines : List (Option Json)) (p : Nat) (acc : List (Json × Json)) :
    ∀ p' m, build_map_loop E lines p acc = .ok (p', m) →
      List.Pairwise (fun a b => a.1 ≠ b.1) acc →
      List.Pairwise (fun a b => a.1 ≠ b.1) m := by
  refine build_map_loop.induct E
    (fun lines p acc => ∀ p' m, build_map_loop E lines p acc = .ok (p', m) →
      List.Pairwise (fun a b => a.1 ≠ b.1) acc →
      List.Pairwise (fun a b => a.1 ≠ b.1) m)
    ?_ ?_ ?_ ?_ ?_ ?_ ?_ ?_ ?_ lines p acc
  · intro processed result p' m h hpw
    simp only [build_map_loop, Except.ok.injEq, Prod.mk.injEq] at h
    rw [← h.2]
    exact hpw
  · intro rest processed result ih p' m h hpw
    simp only [build_map_loop] at h
    exact ih p' m h hpw
  · intro data rest processed result e he p' m h hpw
    simp [build_map_loop, he] at h
  · intro data rest processed result hc ih p' m h hpw
    simp only [build_map_loop, hc] at h
    exact ih p' m h hpw
  · intro data rest processed result hc e hz p' m h hpw
    simp [build_map_loop, hc, hz] at h
  · intro data rest processed result hc z hz ht hh hck ih p' m h hpw
    simp [build_map_loop, hc, hz, ht, hh, hck] at h
    exact ih p' m h hpw
  · intro data rest processed result hc z hz ht hh hck ih p' m h hpw
    simp [build_map_loop, hc, hz, ht, hh, hck] at h
    refine ih p' m h ?_
    rw [List.pairwise_append]
    refine ⟨hpw, by simp, ?_⟩
    intro a ha b hb
    have hb2 : b = (z, data) := by simpa using hb
    subst hb2
    have hck' : containsKeyJ result z = false := by
      cases hcv : containsKeyJ result z
      · rfl
      · exact absurd hcv hck
    exact (containsKeyJ_false_iff result z).mp hck' a ha
  · intro data rest processed result hc z hz ht hh p' m h hpw
    simp [build_map_loop, hc, hz, ht, hh] at h
  · intro data rest processed result hc z hz ht ih p' m h hpw
    simp [build_map_loop, hc, hz, ht] at h
    exact ih p' m h hpw

theorem build_map_loop_lookup (E : Option String)
    (lines : List (Option Json)) (p : Nat) (acc : List (Json × Json)) :
    ∀ p' m k, build_map_loop E lines p acc = .ok (p', m) →
      containsKeyJ acc k = false →
      lookupJ m k =
        ((lines.filterMap (accepted E)).find? (fun q => jsonBeq q.1 k)).map
          Prod.snd := by
  refine build_map_loop.induct E
    (fun lines p acc => ∀ p' m k, build_map_loop E lines p acc = .ok (p', m) →
      containsKeyJ acc k = false →
      lookupJ m k =
        ((lines.filterMap (accepted E)).find? (fun q => jsonBeq q.1 k)).map
          Prod.snd)
    ?_ ?_ ?_ ?_ ?_ ?_ ?_ ?_ ?_ lines p acc
  · intro processed result p' m k h hk
    simp only [build_map_loop, Except.ok.injEq, Prod.mk.injEq] at h
    rw [← h.2, lookupJ_none result k hk]
    simp
  · intro rest processed result ih p' m k h hk
    simp only [build_map_loop] at h
    rw [List.filterMap_cons_none (show accepted E none = none from rfl)]
    exact ih p' m k h hk
  · intro data rest processed result e he p' m k h hk
    simp [build_map_loop, he] at h
  · intro data rest processed result hc ih p' m k h hk
    simp only [build_map_loop, hc] at h
    rw [List.filterMap_cons_none (show accepted E (some data) = none by
      simp [accepted, hc])]
    exact ih p' m k h hk
  · intro data rest processed result hc e hz p' m k h hk
    simp [build_map_loop, hc, hz] at h
  · intro data rest processed result hc z hz ht hh hck ih p' m k h hk
    simp [build_map_loop, hc, hz, ht, hh, hck] at h
    rw [List.filterMap_cons_some (show accepted E (some data) =
      some (z, data) by simp [accepted, hc, hz, ht, hh])]
    by_cases hbk : jsonBeq z k = true
    · have hzk : z = k := (jsonBeq_iff z k).mp hbk
      rw [hzk] at hck
      rw [hck] at hk
      exact Bool.noConfusion hk
    · rw [show List.find? (fun q => jsonBeq q.1 k)
          ((z, data) :: List.filterMap (accepted E) rest) =
          List.find? (fun q => jsonBeq q.1 k)
            (List.filterMap (accepted E) rest) from
        List.find?_cons_of_neg _ hbk]
      exact ih p' m k h hk
  · intro data rest processed result hc z hz ht hh hck ih p' m k h hk
    simp [build_map_loop, hc, hz, ht, hh, hck] at h
    rw [List.filterMap_cons_some (show accepted E (some data) =
      some (z, data) by simp [accepted, hc, hz, ht, hh])]
    by_cases hbk : jsonBeq z k = true
    · have hzk : z = k := (jsonBeq_iff z k).mp hbk
      subst hzk
      rw [show List.find? (fun q => jsonBeq q.1 z)
          ((z, data) :: List.filterMap (accepted E) rest) =
          some (z, data) from
        List.find?_cons_of_pos _ (jsonBeq_refl z)]
      obtain ⟨ext, hm⟩ := build_map_loop_extends E rest (processed + 1)
        (result ++ [(z, data)]) p' m h
      rw [hm, List.append_assoc,
        lookupJ_append_right result ([(z, data)] ++ ext) z hk]
      simp [lookupJ, jsonBeq_refl]
    · have hzb : jsonBeq z k = false := by
        cases hv : jsonBeq z k
        · rfl
        · exact absurd hv hbk
      have hk2 : containsKeyJ (result ++ [(z, data)]) k = false := by
        rw [containsKeyJ_append]
        simp [containsKeyJ, hk, hzb]
      rw [show List.find? (fun q => jsonBeq q.1 k)
          ((z, data) :: List.filterMap (accepted E) rest) =
          List.find? (fun q => jsonBeq q.1 k)
            (List.filterMap (accepted E) rest) from
        List.find?_cons_of_neg _ hbk]
      exact ih p' m k h hk2
  · intro data rest processed result hc z hz ht hh p' m k h hk
    simp [build_map_loop, hc, hz, ht, hh] at h
  · intro data rest processed result hc z hz ht ih p' m k h hk
    simp [build_map_loop, hc, hz, ht] at h
    rw [List.filterMap_cons_none (show accepted E (some data) = none by
      simp [accepted, hc, hz, ht])]
    exact ih p' m k h hk

/-- C9: whenever `build_map` returns a map, every stored entry's key is
exactly the entity's extracted `zid`, every stored entity classifies as
the requested kind, no key appears twice (entries are never overwritten),
and for duplicate ids the entity from the earliest accepted source line is
retained: lookup of any key yields the first accepted candidate (parsed,
correct kind, truthy hashable id) carrying that key, in source-line
order. -/
theorem C9_build_map_invariants (E : Option String)
    (lines : List (Option Json)) (processed : Nat) (m : List (Json × Json))
    (h : ZMap_build_map E lines = .ok (processed, m)) :
    (∀ x ∈ m, zid x.2 = .ok x.1 ∧ is_correct_type E x.2 = .ok true) ∧
    List.Pairwise (fun a b => a.1 ≠ b.1) m ∧
    (∀ k, lookupJ m k =
      ((lines.filterMap (accepted E)).find? (fun q => jsonBeq q.1 k)).map
        Prod.snd) := by
  rw [ZMap_build_map] at h
  refine ⟨?_, ?_, ?_⟩
  · intro x hx
    rcases build_map_loop_members E lines 0 [] processed m h x hx with h1 | h1
    · simp at h1
    · exact ⟨h1.1, h1.2.1⟩
  · exact build_map_loop_pairwise E lines 0 [] processed m h (by simp)
  · intro k
    exact build_map_loop_lookup E lines 0 [] processed m k h rfl

theorem C9_build_map_invariants_witness :
    lookupJ
      [(.str "Z101",
        .obj [("Z2K1", .obj [("Z6K1", .str "Z101")]),
          ("Z2K2", .obj [("Z1K1", .str "Z14")])])]
      (.str "Z101") =
    some (.obj [("Z2K1", .obj [("Z6K1", .str "Z101")]),
      ("Z2K2", .obj [("Z1K1", .str "Z14")])]) := by
  have h := (C9_build_map_invariants (some "Z14")
    [some (.obj [("Z2K1", .obj [("Z6K1", .str "Z101")]),
      ("Z2K2", .obj [("Z1K1", .str "Z14")])]),
     none,
     some (.obj [("Z2K1", .obj [("Z6K1", .str "Z101")]),
      ("Z2K2", .obj [("Z1K1", .str "Z14")])])]
    3
    [(.str "Z101",
      .obj [("Z2K1", .obj [("Z6K1", .str "Z101")]),
        ("Z2K2", .obj [("Z1K1", .str "Z14")])])]
    rfl).2.2 (.str "Z101")
  rw [h]
  rfl
